import Mathlib

/-!
Shallow embedding of the Tauri Whisper/Vosk transcription app's Rust core
(src-tauri/src/main.rs, src-tauri/src/vosk_live_transcriber.rs,
src-tauri/src/whisper_rs_imp/transcriber.rs) and proofs about it.

Conventions:
* `f64` values are modelled as exact rationals (`ℚ`).  Where a concrete
  floating-point input matters, the exact rational value of the IEEE-754
  double is used and it is checked that every intermediate operation of the
  modelled code is exact at that input, so the rational computation equals
  the machine computation there.
* The opaque external engines (Vosk model/recognizer, Whisper context,
  ffmpeg) are modelled as scripted oracles: the wrapper code is translated
  faithfully, the engine's answers are parameters.
* Rust `HashMap<String, _>` is modelled as an association list with
  HashMap semantics (keys unique in every reachable table; lookup finds the
  key, remove deletes the key).
* Fallible Rust code (`anyhow::Result<T>`) becomes `Except String T`, with
  the source's error message strings.
-/

namespace TauriWhisper

/-! ## Vosk live transcription (src-tauri/src/vosk_live_transcriber.rs) -/

/-- `vosk::DecodingState`, as matched by `VoskLiveSession::process_chunk`. -/
inductive DecodingState
  | Finalized
  | Running
  | Failed
deriving DecidableEq, Repr

/-- Outcome of one `recognizer.accept_waveform(pcm_data)` call:
`Ok(state)` or `Err(AcceptWaveformError)`. -/
inductive AcceptResult
  | ok (s : DecodingState)
  | err
deriving DecidableEq, Repr

/-- One frame's worth of behaviour of the opaque Vosk engine: the
`accept_waveform` outcome together with the texts the recognizer would
report for this frame (`result().single()` and `partial_result().partial`). -/
structure FrameResponse where
  accept : AcceptResult
  resultSingle : Option String
  partialText : String
deriving DecidableEq, Repr

/-- Model of the opaque `vosk::Recognizer` (an external engine): its
scripted responses to successive `accept_waveform` calls and the text of
its `final_result().single()`.  An empty script answers `Running` with an
empty partial, so every finite engine behaviour is representable. -/
structure Recognizer where
  steps : List FrameResponse
  finalSingle : Option String
deriving DecidableEq, Repr

/-- Feeding one frame to the recognizer: consume the next scripted
response. -/
def Recognizer.acceptWaveform (r : Recognizer) : FrameResponse × Recognizer :=
  match r.steps with
  | [] => ({ accept := AcceptResult.ok DecodingState.Running,
             resultSingle := none, partialText := "" }, r)
  | f :: rest => (f, { r with steps := rest })

/-- `VoskTranscriptionResult { text, is_partial }`. -/
structure VoskTranscriptionResult where
  text : String
  is_partial : Bool
deriving DecidableEq, Repr

/-- `VoskLiveSession { model, recognizer, sample_rate }`.  The `model`
field only keeps the engine resource alive in the source; the recognizer
oracle subsumes it here. -/
structure VoskLiveSession where
  recognizer : Recognizer
  sample_rate : ℚ
deriving DecidableEq, Repr

/-- `VoskLiveSession::process_chunk`: feed the frame, then match on the
decoding state exactly as the source does.  `pcm_data` is handed to the
engine; the scripted oracle already fixes the engine's answer to it. -/
def VoskLiveSession.process_chunk (s : VoskLiveSession) (pcm_data : List Int) :
    VoskTranscriptionResult × VoskLiveSession :=
  let fr := Recognizer.acceptWaveform s.recognizer
  let s2 : VoskLiveSession := { s with recognizer := fr.2 }
  let _unused := pcm_data
  match fr.1.accept with
  | AcceptResult.ok DecodingState.Finalized =>
      match fr.1.resultSingle with
      | some t => ({ text := t, is_partial := false }, s2)
      | none => ({ text := "", is_partial := false }, s2)
  | AcceptResult.ok DecodingState.Running =>
      ({ text := fr.1.partialText, is_partial := true }, s2)
  | AcceptResult.ok DecodingState.Failed =>
      ({ text := "", is_partial := true }, s2)
  | AcceptResult.err =>
      ({ text := "", is_partial := true }, s2)

/-- `VoskLiveSession::finalize`: `final_result().single()`, or empty. -/
def VoskLiveSession.finalize (s : VoskLiveSession) : String :=
  match s.recognizer.finalSingle with
  | some t => t
  | none => ""

/-- The session table, `HashMap<String, VoskLiveSession>`. -/
def SessionTable : Type := List (String × VoskLiveSession)

/-- HashMap lookup: the entry stored at the key. -/
def tableLookup (id : String) : List (String × VoskLiveSession) → Option VoskLiveSession
  | [] => none
  | (k, s) :: rest => if k = id then some s else tableLookup id rest

/-- HashMap in-place mutation through `get_mut`: replace the entry at the
key. -/
def tableUpdate (id : String) (s : VoskLiveSession) :
    List (String × VoskLiveSession) → List (String × VoskLiveSession)
  | [] => []
  | (k, s0) :: rest =>
      if k = id then (k, s) :: rest else (k, s0) :: tableUpdate id s rest

/-- HashMap remove: delete the key.  Reachable tables never hold a key
twice, so deleting every occurrence coincides with `HashMap::remove`. -/
def tableRemove (id : String) :
    List (String × VoskLiveSession) → List (String × VoskLiveSession)
  | [] => []
  | (k, s0) :: rest =>
      if k = id then tableRemove id rest else (k, s0) :: tableRemove id rest

/-- HashMap insert: bind the key to the session. -/
def tableInsert (id : String) (s : VoskLiveSession)
    (t : List (String × VoskLiveSession)) : List (String × VoskLiveSession) :=
  (id, s) :: tableRemove id t

/-- `VoskSessionManager { sessions, next_id }`. -/
structure VoskSessionManager where
  sessions : List (String × VoskLiveSession)
  next_id : Nat
deriving DecidableEq, Repr

/-- `VoskSessionManager::new()`. -/
def VoskSessionManager.new : VoskSessionManager :=
  { sessions := [], next_id := 1 }

/-- The message of `anyhow!("Session not found: {}", session_id)`. -/
def sessionNotFoundMsg (id : String) : String := "Session not found: " ++ id

/-- `VoskSessionManager::start_session`: `VoskLiveSession::new` loads the
external model, so its outcome is a parameter; on success the session is
stored under the fresh id `vosk-{next_id}`. -/
def VoskSessionManager.start_session (m : VoskSessionManager)
    (newSession : Except String VoskLiveSession) :
    (Except String String) × VoskSessionManager :=
  match newSession with
  | Except.error e => (Except.error e, m)
  | Except.ok session =>
      let session_id := "vosk-" ++ toString m.next_id
      (Except.ok session_id,
        { sessions := tableInsert session_id session m.sessions,
          next_id := m.next_id + 1 })

/-- `VoskSessionManager::process_chunk`: look the session up
(`get_mut`), fail with `Session not found: {id}` when absent, otherwise
run the session's `process_chunk` and store the mutated session back. -/
def VoskSessionManager.process_chunk (m : VoskSessionManager)
    (session_id : String) (pcm_data : List Int) :
    (Except String VoskTranscriptionResult) × VoskSessionManager :=
  match tableLookup session_id m.sessions with
  | none => (Except.error (sessionNotFoundMsg session_id), m)
  | some s =>
      let rs := VoskLiveSession.process_chunk s pcm_data
      (Except.ok rs.1, { m with sessions := tableUpdate session_id rs.2 m.sessions })

/-- `VoskSessionManager::end_session`: remove the session from the table
(fail with `Session not found: {id}` when absent), finalize it and return
the final text. -/
def VoskSessionManager.end_session (m : VoskSessionManager)
    (session_id : String) : (Except String String) × VoskSessionManager :=
  match tableLookup session_id m.sessions with
  | none => (Except.error (sessionNotFoundMsg session_id), m)
  | some s =>
      (Except.ok (VoskLiveSession.finalize s),
        { m with sessions := tableRemove session_id m.sessions })

/-- `VoskSessionManager::active_sessions`. -/
def VoskSessionManager.active_sessions (m : VoskSessionManager) : Nat :=
  m.sessions.length

/-! ## Decimal rendering

Rust's `format!("{}", n)` / `format!("{:02}", n)` on unsigned integers:
decimal digits, zero-padded to a minimum width.  The digit list is produced
by a fuelled structural recursion so that it evaluates by `decide`/`rfl`. -/

/-- Decimal digits of `n`, most significant first; `fuel` bounds the
recursion depth (any `fuel > n` is enough). -/
def natDigitsGo (fuel : Nat) (n : Nat) : List Char :=
  match fuel with
  | 0 => []
  | f + 1 =>
      if n < 10 then [Nat.digitChar n]
      else natDigitsGo f (n / 10) ++ [Nat.digitChar (n % 10)]

/-- Decimal digits of `n`, most significant first. -/
def natDigits (n : Nat) : List Char := natDigitsGo (n + 1) n

/-- `format!("{}", n)` for an unsigned integer. -/
def natToStr (n : Nat) : String := String.mk (natDigits n)

/-- Zero padding to width `w`: `format!("{:0w}", ·)` on the digit list. -/
def zeroPad (w : Nat) (cs : List Char) : List Char :=
  List.replicate (w - cs.length) '0' ++ cs

/-- Rust `str::trim` on the character list: strip whitespace from both
ends (`Char.isWhitespace` models the whitespace class). -/
def trimChars (cs : List Char) : List Char :=
  ((cs.dropWhile Char.isWhitespace).reverse.dropWhile Char.isWhitespace).reverse

/-- Rust `str::trim`. -/
def strTrim (s : String) : String := String.mk (trimChars s.data)

/-! ## Timestamp rendering (main.rs `format_timestamp_srt` / `_vtt`)

The Rust code computes over `f64`.  Here the computation is carried out
exactly over `ℚ`: `.floor()` is the real floor, `%` is `fmod` (remainder
with the quotient truncated toward zero), `as u32` saturates at `0` and
`2^32 - 1`. -/

/-- Truncation toward zero, as `fmod` uses it. -/
def truncQ (q : ℚ) : Int := if 0 ≤ q then ⌊q⌋ else ⌈q⌉

/-- `x % y` on `f64` (IEEE `fmod`), exactly over `ℚ`. -/
def fmod (x y : ℚ) : ℚ := x - y * (truncQ (x / y) : ℚ)

/-- `q.floor() as u32`: floor, then the saturating float-to-int cast. -/
def floorAsU32 (q : ℚ) : Nat :=
  if q < 0 then 0 else min (⌊q⌋).toNat (2 ^ 32 - 1)

/-- The four components every timestamp renderer computes:
`hours = (s/3600).floor()`, `minutes = ((s%3600)/60).floor()`,
`secs = (s%60).floor()`, `millis = ((s%1)*1000).floor()`, each `as u32`. -/
def timestampParts (seconds : ℚ) : Nat × Nat × Nat × Nat :=
  (floorAsU32 (seconds / 3600),
   floorAsU32 (fmod seconds 3600 / 60),
   floorAsU32 (fmod seconds 60),
   floorAsU32 (fmod seconds 1 * 1000))

/-- `format!("{:02}:{:02}:{:02}{sep}{:03}", h, m, s, ms)`. -/
def renderStamp (h m s ms : Nat) (sep : Char) : String :=
  String.mk (zeroPad 2 (natDigits h) ++ ':' :: zeroPad 2 (natDigits m) ++
    ':' :: zeroPad 2 (natDigits s) ++ sep :: zeroPad 3 (natDigits ms))

/-- `format_timestamp_srt` (main.rs): `HH:MM:SS,mmm`. -/
def format_timestamp_srt (seconds : ℚ) : String :=
  match timestampParts seconds with
  | (hours, minutes, secs, millis) => renderStamp hours minutes secs millis ','

/-- `format_timestamp_vtt` (main.rs): `HH:MM:SS.mmm`. -/
def format_timestamp_vtt (seconds : ℚ) : String :=
  match timestampParts seconds with
  | (hours, minutes, secs, millis) => renderStamp hours minutes secs millis '.'

/-! ## Subtitle generation (main.rs `generate_srt` / `generate_vtt`) -/

/-- `SubtitleSegment { index, start_time, end_time, text }`. -/
structure SubtitleSegment where
  index : Nat
  start_time : ℚ
  end_time : ℚ
  text : String
deriving DecidableEq, Repr

/-- The three `push_str` calls of one iteration of `generate_srt`'s loop. -/
def srtEntry (segment : SubtitleSegment) : String :=
  (natToStr (segment.index + 1) ++ "\n") ++
  (format_timestamp_srt segment.start_time ++ " --> " ++
    format_timestamp_srt segment.end_time ++ "\n") ++
  (strTrim segment.text ++ "\n\n")

/-- The two `push_str` calls of one iteration of `generate_vtt`'s loop. -/
def vttEntry (segment : SubtitleSegment) : String :=
  (format_timestamp_vtt segment.start_time ++ " --> " ++
    format_timestamp_vtt segment.end_time ++ "\n") ++
  (strTrim segment.text ++ "\n\n")

/-- `generate_srt` (main.rs): start from `""` and append each segment's
index line, timestamp line and trimmed text. -/
def generate_srt (segments : List SubtitleSegment) : String :=
  segments.foldl (fun srt segment => srt ++ srtEntry segment) ""

/-- `generate_vtt` (main.rs): start from `"WEBVTT\n\n"` and append each
segment's timestamp line and trimmed text. -/
def generate_vtt (segments : List SubtitleSegment) : String :=
  segments.foldl (fun vtt segment => vtt ++ vttEntry segment) "WEBVTT\n\n"

/-! ## Exact rational values of the `f64` inputs used for claim C3 -/

/-- The IEEE-754 double nearest to `3661.234` — the value the Rust literal
(or a JSON `3661.234`) actually denotes: `0x1.c9a77ced91687p+11`.  It is
slightly *below* `3661.234`. -/
def f64_3661_234 : ℚ := (8051138710017671 : ℚ) / (2199023255552 : ℚ)

/-- The exact rational `3661.234`, for comparison. -/
def exact_3661_234 : ℚ := (3661234 : ℚ) / (1000 : ℚ)

/-! ## The batch pipeline (main.rs `transcribe_file_advanced_impl`)

The function is translated path by path.  External effects (filesystem
checks, ffmpeg conversion, the spawned Whisper task) are parameters; the
emitted `transcription-progress` events, the returned value and whether the
intermediate `temp_audio.wav` exists when the function returns are all
recorded in the outcome.  `app.emit(..).ok()` ignores delivery failure, so
an event counts as emitted unconditionally. -/

/-- `TranscriptionProgress` (main.rs). -/
inductive TranscriptionProgress
  | Converting (message : String)
  | DetectingLanguage
  | LanguageDetected (language : String)
  | Transcribing (progress : Nat)
  | GeneratingSubtitles
  | Complete (subtitle_format : String)
deriving DecidableEq, Repr

/-- `TranscriptionResult` (main.rs). -/
structure TranscriptionResult where
  text : String
  subtitles_srt : String
  subtitles_vtt : String
  language : String
  segments : List SubtitleSegment
deriving DecidableEq, Repr

/-- The external collaborators of one batch job: whether the input file
and the model file exist, whether the temp directory could be created,
the ffmpeg conversion's outcome (duration on success; on failure, whether
ffmpeg had already created the output file), the `spawn_blocking` join
outcome, and `transcribe_single_pass`'s outcome `(language, segments)`. -/
structure BatchEnv where
  file_exists : Bool
  model_exists : Bool
  create_dir_ok : Bool
  convert : Except String ℚ
  convert_wrote_file : Bool
  spawn_ok : Bool
  transcribe : Except String (String × List (ℚ × ℚ × String))

/-- What one run of the batch pipeline did. -/
structure BatchOutcome where
  events : List TranscriptionProgress
  result : Except String TranscriptionResult
  temp_exists : Bool
deriving Repr

/-- The `enumerate` step building `final_segments` (main.rs, step 3). -/
def assignIndices (segments : List (ℚ × ℚ × String)) : List SubtitleSegment :=
  segments.enum.map (fun p =>
    { index := p.1, start_time := p.2.1, end_time := p.2.2.1, text := p.2.2.2 })

/-- `transcribe_file_advanced_impl` (main.rs).  Error messages keep the
source's text; `format!` arguments such as the file path are elided. -/
def transcribe_file_advanced_impl (env : BatchEnv) : BatchOutcome :=
  if env.file_exists = false then
    { events := [], result := Except.error "File not found", temp_exists := false }
  else if env.model_exists = false then
    { events := [],
      result := Except.error "Model not found. Please download it first.",
      temp_exists := false }
  else if env.create_dir_ok = false then
    { events := [], result := Except.error "Failed to create temp directory",
      temp_exists := false }
  else
    -- Step 1: emit Converting, run ffmpeg
    let ev1 := [TranscriptionProgress.Converting "Converting audio to WAV format..."]
    match env.convert with
    | Except.error e =>
        { events := ev1, result := Except.error e,
          temp_exists := env.convert_wrote_file }
    | Except.ok _duration =>
        -- Step 2: emit Transcribing 50, then run the blocking Whisper task
        let ev2 := ev1 ++ [TranscriptionProgress.Transcribing 50]
        if env.spawn_ok = false then
          { events := ev2,
            result := Except.error "Failed to spawn blocking Whisper task",
            temp_exists := true }
        else
          match env.transcribe with
          | Except.error e =>
              { events := ev2, result := Except.error e, temp_exists := true }
          | Except.ok (language, segments) =>
              -- Step 3: emit LanguageDetected then GeneratingSubtitles, format
              let ev3 := ev2 ++ [TranscriptionProgress.LanguageDetected language,
                TranscriptionProgress.GeneratingSubtitles]
              let final_segments := assignIndices segments
              let text := String.intercalate " "
                (final_segments.map (fun s => s.text))
              let srt := generate_srt final_segments
              let vtt := generate_vtt final_segments
              -- Step 4: remove temp_audio.wav, emit Complete
              let ev4 := ev3 ++ [TranscriptionProgress.Complete "SRT/VTT"]
              { events := ev4,
                result := Except.ok
                  { text := text, subtitles_srt := srt, subtitles_vtt := vtt,
                    language := language, segments := final_segments },
                temp_exists := false }

/-- The stage order the spec postulates:
Converting < DetectingLanguage < LanguageDetected < Transcribing <
GeneratingSubtitles < Complete. -/
def stageRank : TranscriptionProgress → Nat
  | TranscriptionProgress.Converting _ => 0
  | TranscriptionProgress.DetectingLanguage => 1
  | TranscriptionProgress.LanguageDetected _ => 2
  | TranscriptionProgress.Transcribing _ => 3
  | TranscriptionProgress.GeneratingSubtitles => 4
  | TranscriptionProgress.Complete _ => 5

/-- The percent values a progress listener observes. -/
def transcribingPercents (events : List TranscriptionProgress) : List Nat :=
  events.filterMap (fun e =>
    match e with
    | TranscriptionProgress.Transcribing p => some p
    | _ => none)

/-- The language of the batch environment's transcription outcome (used to
state which full event trace a run's trace is a prefix of). -/
def envLanguage (env : BatchEnv) : String :=
  match env.transcribe with
  | Except.ok (language, _) => language
  | Except.error _ => ""

/-- The complete success-path event trace of `transcribe_file_advanced_impl`. -/
def fullTrace (language : String) : List TranscriptionProgress :=
  [TranscriptionProgress.Converting "Converting audio to WAV format...",
   TranscriptionProgress.Transcribing 50,
   TranscriptionProgress.LanguageDetected language,
   TranscriptionProgress.GeneratingSubtitles,
   TranscriptionProgress.Complete "SRT/VTT"]

/-! ## Single-pass transcription (whisper_rs_imp/transcriber.rs)

`transcribe_single_pass` is translated with its external calls as
parameters, and the Whisper-engine calls it performs are recorded in an
action trace, so "the model is loaded" / "decoding is attempted" are
statable. -/

/-- `hound::WavSpec`, the fields the source reads. -/
structure WavSpec where
  sample_rate : Nat
  bits_per_sample : Nat
  channels : Nat
deriving DecidableEq, Repr

/-- The Whisper-engine calls `transcribe_single_pass` can make, in
source order: `WhisperContext::new_with_params`, `ctx.create_state()`,
`state.full(..)`. -/
inductive WhisperAction
  | loadModel
  | createState
  | runFull
deriving DecidableEq, Repr

/-- External outcomes of one `transcribe_single_pass` call: the WAV open
result, the two sample-format conversions, model load, state creation, and
the decode result as `(start_cs, end_cs, text)` segments with centisecond
timestamps, plus `get_lang_str`'s answer. -/
structure SinglePassEnv where
  wav_open : Except String WavSpec
  pcm_convert_ok : Bool
  stereo_convert_ok : Bool
  model_load_ok : Bool
  state_create_ok : Bool
  decode : Except String (List (Int × Int × String))
  lang_str : Option String

/-- Steps 2–7 of `transcribe_single_pass`, reached once the audio buffer
has been validated and converted. -/
def singlePassDecode (env : SinglePassEnv) (auto_detect_language : Bool) :
    (Except String (String × List (ℚ × ℚ × String))) × List WhisperAction :=
  if env.model_load_ok = false then
    (Except.error "Failed to load Whisper model", [WhisperAction.loadModel])
  else if env.state_create_ok = false then
    (Except.error "Failed to create Whisper state",
     [WhisperAction.loadModel, WhisperAction.createState])
  else
    match env.decode with
    | Except.error e =>
        (Except.error e,
         [WhisperAction.loadModel, WhisperAction.createState, WhisperAction.runFull])
    | Except.ok raw =>
        let segments := raw.filterMap (fun t =>
          let text := strTrim t.2.2
          if text = "" then none
          else some ((t.1 : ℚ) / 100, (t.2.1 : ℚ) / 100, text))
        let language_code := if auto_detect_language then "auto" else "en"
        let detected_language :=
          if auto_detect_language then
            match env.lang_str with
            | some l => l
            | none => "unknown"
          else language_code
        (Except.ok (detected_language, segments),
         [WhisperAction.loadModel, WhisperAction.createState, WhisperAction.runFull])

/-- `transcribe_single_pass` (whisper_rs_imp/transcriber.rs): open the
WAV, validate sample rate, bit depth and channel count, convert the
samples, then load the model and decode. -/
def transcribe_single_pass (env : SinglePassEnv) (auto_detect_language : Bool) :
    (Except String (String × List (ℚ × ℚ × String))) × List WhisperAction :=
  match env.wav_open with
  | Except.error e => (Except.error e, [])
  | Except.ok spec =>
      if spec.sample_rate ≠ 16000 then
        (Except.error ("Expected 16kHz sample rate, got " ++ natToStr spec.sample_rate), [])
      else if spec.bits_per_sample ≠ 16 then
        (Except.error ("Expected 16-bit PCM audio, got " ++
          natToStr spec.bits_per_sample ++ " bits"), [])
      else if env.pcm_convert_ok = false then
        (Except.error "Failed to convert PCM samples", [])
      else if spec.channels = 2 then
        if env.stereo_convert_ok = false then
          (Except.error "Failed to convert stereo to mono", [])
        else singlePassDecode env auto_detect_language
      else if spec.channels = 1 then
        singlePassDecode env auto_detect_language
      else
        (Except.error ("Unsupported channel count: " ++ natToStr spec.channels ++
          ". Only mono (1) and stereo (2) are supported."), [])

/-! ## The Chunker (spec §4.1)

Modelled from the spec: the repository's sources contain no chunker —
`transcribe_single_pass` passes the whole sample buffer to the engine in a
single `state.full` call — so the Chunker of spec §2/§4.1 is embedded from
the spec's words: `stride = chunk_size − overlap_size`, a new chunk starts
every `stride` samples, the loop terminates when a chunk's end reaches the
input end, the final chunk is truncated rather than padded, and
`overlap ≥ chunk duration` is rejected. -/

/-- `AudioChunk { samples, offset_seconds }` (spec §3). -/
structure AudioChunk where
  samples : List ℚ
  offset_seconds : ℚ
deriving DecidableEq, Repr

/-- Modelled from the spec: the chunk start positions, one every `stride`
samples, stopping with the first chunk whose end reaches the input end.
`fuel` bounds the recursion; any `fuel ≥ n - start + 1` is enough when
`stride ≥ 1`. -/
def chunkStartsGo (fuel : Nat) (n cs stride start : Nat) : List Nat :=
  match fuel with
  | 0 => []
  | f + 1 =>
      if start + cs < n then start :: chunkStartsGo f n cs stride (start + stride)
      else [start]

/-- Modelled from the spec: all chunk start positions for an input of `n`
samples. -/
def chunkStarts (n cs stride : Nat) : List Nat := chunkStartsGo (n + 1) n cs stride 0

/-- Modelled from the spec: the chunk starting at sample `start`: up to
`cs` samples (truncated at the input end), offset in seconds. -/
def chunkOf (samples : List ℚ) (sample_rate cs start : Nat) : AudioChunk :=
  { samples := (samples.drop start).take cs,
    offset_seconds := (start : ℚ) / (sample_rate : ℚ) }

/-- Modelled from the spec: the Chunker.  Rejects `overlap ≥ chunk
duration` (non-positive stride), otherwise emits the ordered chunk list. -/
def chunker (samples : List ℚ) (sample_rate chunk_duration overlap_duration : Nat) :
    Option (List AudioChunk) :=
  let chunk_size := chunk_duration * sample_rate
  let overlap_size := overlap_duration * sample_rate
  if chunk_size ≤ overlap_size then none
  else
    some ((chunkStarts samples.length chunk_size (chunk_size - overlap_size)).map
      (chunkOf samples sample_rate chunk_size))

/-! ## Re-parsing SRT index lines (claim C5)

SRT entries are separated by blank lines and each entry's first line is its
index.  The parser splits the formatter's output into lines and keeps every
line that opens a blank-separated block, then reads it as a decimal
number. -/

/-- The lines of a character stream, split at `'\n'`. -/
def splitLines : List Char → List (List Char)
  | [] => [[]]
  | c :: rest =>
      if c = '\n' then [] :: splitLines rest
      else
        match splitLines rest with
        | [] => [[c]]
        | l :: ls => (c :: l) :: ls

/-- The first line of every blank-separated block: a non-blank line is kept
exactly when the previous line was blank (or it is the first line). -/
def indexLinesGo (prevBlank : Bool) : List (List Char) → List (List Char)
  | [] => []
  | l :: ls =>
      if l = [] then indexLinesGo true ls
      else if prevBlank then l :: indexLinesGo false ls
      else indexLinesGo false ls

/-- Decimal reading of a digit line. -/
def parseNatChars (cs : List Char) : Nat :=
  cs.foldl (fun a c => a * 10 + (c.toNat - 48)) 0

/-- The integers on the index lines of an SRT text, in order. -/
def parseSrtIndexLines (s : String) : List Nat :=
  (indexLinesGo true (splitLines s.data)).map parseNatChars

/-! ## Spec-side statements of the formatter shapes -/

/-- The spec's reading of the timestamp components: hours, minutes and
seconds by integer floor division of the total seconds, milliseconds as
`floor(fractional_seconds * 1000)`. -/
def specTimestampParts (q : ℚ) : Nat × Nat × Nat × Nat :=
  (⌊q⌋₊ / 3600, ⌊q⌋₊ / 60 % 60, ⌊q⌋₊ % 60, ⌊(q - (⌊q⌋₊ : ℚ)) * 1000⌋₊)

/-- Concatenation of the rendered entries, the per-entry shape the spec
describes. -/
def concatMap (f : α → String) : List α → String
  | [] => ""
  | x :: xs => f x ++ concatMap f xs

/-- The four lines one SRT entry contributes to the formatted output:
index line, timestamp line, trimmed text line, blank line. -/
def srtEntryLines (seg : SubtitleSegment) : List (List Char) :=
  [natDigits (seg.index + 1),
   (format_timestamp_srt seg.start_time ++ " --> " ++
     format_timestamp_srt seg.end_time).data,
   (strTrim seg.text).data,
   []]

/-! ## Concrete batch environments used in counterexamples -/

/-- A fully successful batch run whose transcription returns language
`"en"` and no segments. -/
def envBatchOk : BatchEnv :=
  { file_exists := true, model_exists := true, create_dir_ok := true,
    convert := Except.ok 0, convert_wrote_file := true, spawn_ok := true,
    transcribe := Except.ok ("en", []) }

/-- A batch run whose conversion succeeds and whose transcription fails. -/
def envBatchDecodeFail : BatchEnv :=
  { file_exists := true, model_exists := true, create_dir_ok := true,
    convert := Except.ok 0, convert_wrote_file := true, spawn_ok := true,
    transcribe := Except.error "Transcription failed" }

/-! # Theorems -/

/-! ## Session-table lemmas -/

theorem tableLookup_tableRemove (id : String) (l : List (String × VoskLiveSession)) :
    tableLookup id (tableRemove id l) = none := by
  induction l with
  | nil => rfl
  | cons p rest ih =>
      obtain ⟨k, s⟩ := p
      by_cases hk : k = id
      · simpa [tableRemove, hk] using ih
      · simpa [tableRemove, hk, tableLookup] using ih

theorem tableLookup_tableUpdate (id : String) (s' : VoskLiveSession)
    (l : List (String × VoskLiveSession)) (h : tableLookup id l ≠ none) :
    tableLookup id (tableUpdate id s' l) = some s' := by
  induction l with
  | nil => exact absurd rfl h
  | cons p rest ih =>
      obtain ⟨k, s⟩ := p
      by_cases hk : k = id
      · simp [tableUpdate, hk, tableLookup]
      · simp only [tableLookup, hk, if_false] at h
        simpa [tableUpdate, hk, tableLookup] using ih h

/-! ## C1 -/

/-- C1: `process_chunk` on a session id absent from the table fails with
`Session not found`, and so does `end_session`; once `end_session(id)`
has succeeded, the session is removed from the table, so any further
`process_chunk(id)` or `end_session(id)` fails with `Session not found`. -/
theorem C1_session_not_found (m m' : VoskSessionManager) (id t : String)
    (pcm pcm2 : List Int) :
    (tableLookup id m.sessions = none →
      (VoskSessionManager.process_chunk m id pcm).1
          = Except.error (sessionNotFoundMsg id) ∧
      (VoskSessionManager.end_session m id).1
          = Except.error (sessionNotFoundMsg id)) ∧
    (VoskSessionManager.end_session m id = (Except.ok t, m') →
      (VoskSessionManager.process_chunk m' id pcm2).1
          = Except.error (sessionNotFoundMsg id) ∧
      (VoskSessionManager.end_session m' id).1
          = Except.error (sessionNotFoundMsg id)) := by
  constructor
  · intro h
    constructor
    · simp [VoskSessionManager.process_chunk, h]
    · simp [VoskSessionManager.end_session, h]
  · intro h
    cases hl : tableLookup id m.sessions with
    | none =>
        rw [VoskSessionManager.end_session, hl] at h
        simp at h
    | some s =>
        rw [VoskSessionManager.end_session, hl] at h
        have hm' : m'.sessions = tableRemove id m.sessions := by
          have := congrArg Prod.snd h
          simp at this
          rw [← this]
        have hnone : tableLookup id m'.sessions = none := by
          rw [hm']; exact tableLookup_tableRemove id m.sessions
        constructor
        · simp [VoskSessionManager.process_chunk, hnone]
        · simp [VoskSessionManager.end_session, hnone]

/-- Witness for C1 at a concrete table: the empty manager. -/
theorem C1_session_not_found_witness :
    (tableLookup "vosk-1" VoskSessionManager.new.sessions = none →
      (VoskSessionManager.process_chunk VoskSessionManager.new "vosk-1" []).1
          = Except.error (sessionNotFoundMsg "vosk-1") ∧
      (VoskSessionManager.end_session VoskSessionManager.new "vosk-1").1
          = Except.error (sessionNotFoundMsg "vosk-1")) ∧
    (VoskSessionManager.end_session VoskSessionManager.new "vosk-1"
        = (Except.ok "", VoskSessionManager.new) →
      (VoskSessionManager.process_chunk VoskSessionManager.new "vosk-1" []).1
          = Except.error (sessionNotFoundMsg "vosk-1") ∧
      (VoskSessionManager.end_session VoskSessionManager.new "vosk-1").1
          = Except.error (sessionNotFoundMsg "vosk-1")) :=
  C1_session_not_found VoskSessionManager.new VoskSessionManager.new
    "vosk-1" "" [] []

/-! ## C2 -/

/-- C2: when the recognizer's decoding state for a frame is `Failed`, or
`accept_waveform` returns an error, `process_chunk` on an existing session
returns `Ok { text: "", is_partial: true }` (no error), the session stays
in the table, and a subsequent `process_chunk` on the same id still
succeeds. -/
theorem C2_failed_frame_recovers (m : VoskSessionManager) (id : String)
    (pcm pcm2 : List Int) (s : VoskLiveSession) (f : FrameResponse)
    (rest : List FrameResponse)
    (hs : tableLookup id m.sessions = some s)
    (hsteps : s.recognizer.steps = f :: rest)
    (hf : f.accept = AcceptResult.ok DecodingState.Failed ∨
      f.accept = AcceptResult.err) :
    (VoskSessionManager.process_chunk m id pcm).1
        = Except.ok { text := "", is_partial := true } ∧
    (∃ s2, tableLookup id (VoskSessionManager.process_chunk m id pcm).2.sessions
        = some s2) ∧
    (∃ r, (VoskSessionManager.process_chunk
        (VoskSessionManager.process_chunk m id pcm).2 id pcm2).1
        = Except.ok r) := by
  obtain ⟨s2, hres⟩ : ∃ s2, VoskLiveSession.process_chunk s pcm
      = ({ text := "", is_partial := true }, s2) := by
    refine ⟨{ s with recognizer := { s.recognizer with steps := rest } }, ?_⟩
    rcases hf with hf | hf <;>
      simp [VoskLiveSession.process_chunk, Recognizer.acceptWaveform, hsteps, hf]
  have h1 : VoskSessionManager.process_chunk m id pcm
      = (Except.ok { text := "", is_partial := true },
         { m with sessions := tableUpdate id s2 m.sessions }) := by
    simp only [VoskSessionManager.process_chunk, hs, hres]
  have h2 : tableLookup id (VoskSessionManager.process_chunk m id pcm).2.sessions
      = some s2 := by
    rw [h1]
    exact tableLookup_tableUpdate id _ m.sessions (by rw [hs]; simp)
  refine ⟨by rw [h1], ⟨_, h2⟩, ?_⟩
  rw [VoskSessionManager.process_chunk, h2]
  exact ⟨_, rfl⟩

/-- Witness for C2: a one-session table whose next frame response is an
`accept_waveform` error. -/
theorem C2_failed_frame_recovers_witness :
    (VoskSessionManager.process_chunk
        { sessions := [("vosk-1",
            { recognizer :=
                { steps := [{ accept := AcceptResult.err,
                              resultSingle := none, partialText := "" }],
                  finalSingle := none },
              sample_rate := 16000 })],
          next_id := 2 } "vosk-1" [0, 1, 2]).1
        = Except.ok { text := "", is_partial := true } ∧
    (∃ s2, tableLookup "vosk-1" (VoskSessionManager.process_chunk
        { sessions := [("vosk-1",
            { recognizer :=
                { steps := [{ accept := AcceptResult.err,
                              resultSingle := none, partialText := "" }],
                  finalSingle := none },
              sample_rate := 16000 })],
          next_id := 2 } "vosk-1" [0, 1, 2]).2.sessions = some s2) ∧
    (∃ r, (VoskSessionManager.process_chunk (VoskSessionManager.process_chunk
        { sessions := [("vosk-1",
            { recognizer :=
                { steps := [{ accept := AcceptResult.err,
                              resultSingle := none, partialText := "" }],
                  finalSingle := none },
              sample_rate := 16000 })],
          next_id := 2 } "vosk-1" [0, 1, 2]).2 "vosk-1" []).1 = Except.ok r) :=
  C2_failed_frame_recovers _ "vosk-1" [0, 1, 2] [] _ _ [] rfl rfl (Or.inr rfl)

/-! ## C6: batch progress stage order -/

/-- Counterexample to C6 as stated: on a fully successful batch run the
emitted trace is Converting, Transcribing(50), LanguageDetected,
GeneratingSubtitles, Complete — the `Transcribing` event precedes
`LanguageDetected`, so the stage ranks are not strictly increasing. -/
theorem C6_stage_order_cex :
    (transcribe_file_advanced_impl envBatchOk).events
      = [TranscriptionProgress.Converting "Converting audio to WAV format...",
         TranscriptionProgress.Transcribing 50,
         TranscriptionProgress.LanguageDetected "en",
         TranscriptionProgress.GeneratingSubtitles,
         TranscriptionProgress.Complete "SRT/VTT"] ∧
    ¬ List.Chain' (fun a b => a < b)
      ((transcribe_file_advanced_impl envBatchOk).events.map stageRank) := by
  refine ⟨rfl, fun h => ?_⟩
  rw [show (transcribe_file_advanced_impl envBatchOk).events.map stageRank
      = [0, 3, 2, 4, 5] from rfl] at h
  exact absurd (List.chain'_cons.mp ((List.chain'_cons.mp h).2)).1 (by omega)

/-- C6 amended: for every batch environment, the emitted events form a
prefix of the fixed sequence Converting, Transcribing(50),
LanguageDetected(lang), GeneratingSubtitles, Complete("SRT/VTT"); in
particular the single Transcribing event is emitted *before*
LanguageDetected, and no DetectingLanguage event is ever emitted. -/
theorem C6_stage_order (env : BatchEnv) :
    ∃ k, (transcribe_file_advanced_impl env).events
      = (fullTrace (envLanguage env)).take k := by
  obtain ⟨fe, me, cd, cv, cw, sp, tr⟩ := env
  cases fe
  · exact ⟨0, rfl⟩
  cases me
  · exact ⟨0, rfl⟩
  cases cd
  · exact ⟨0, rfl⟩
  cases cv with
  | error e => exact ⟨1, rfl⟩
  | ok d =>
      cases sp
      · exact ⟨2, rfl⟩
      cases tr with
      | error e => exact ⟨2, rfl⟩
      | ok p => obtain ⟨l, sgs⟩ := p; exact ⟨5, rfl⟩

/-! ## C7: batch progress percents -/

/-- Counterexample to C7 as stated: on a fully successful batch run the
listener observes exactly one Transcribing percent, the hardcoded 50, so
the sequence does not end at 100. -/
theorem C7_percent_cex :
    transcribingPercents (transcribe_file_advanced_impl envBatchOk).events = [50] ∧
    (transcribingPercents
        (transcribe_file_advanced_impl envBatchOk).events).getLast? ≠ some 100 := by
  constructor
  · rfl
  · decide

/-- C7 amended: for every batch environment the observed Transcribing
percent sequence is `[]` or `[50]` — trivially non-decreasing, and its
last value (when it exists) is the hardcoded 50, not 100. -/
theorem C7_percents (env : BatchEnv) :
    (transcribingPercents (transcribe_file_advanced_impl env).events = [] ∨
      transcribingPercents (transcribe_file_advanced_impl env).events = [50]) ∧
    List.Chain' (fun a b => a ≤ b)
      (transcribingPercents (transcribe_file_advanced_impl env).events) := by
  have hd : transcribingPercents (transcribe_file_advanced_impl env).events = [] ∨
      transcribingPercents (transcribe_file_advanced_impl env).events = [50] := by
    obtain ⟨fe, me, cd, cv, cw, sp, tr⟩ := env
    cases fe
    · exact Or.inl rfl
    cases me
    · exact Or.inl rfl
    cases cd
    · exact Or.inl rfl
    cases cv with
    | error e => exact Or.inl rfl
    | ok d =>
        cases sp
        · exact Or.inr rfl
        cases tr with
        | error e => exact Or.inr rfl
        | ok p => obtain ⟨l, sgs⟩ := p; exact Or.inr rfl
  rcases hd with he | he
  · exact ⟨Or.inl he, by rw [he]; exact List.chain'_nil⟩
  · exact ⟨Or.inr he, by rw [he]; exact List.chain'_singleton 50⟩

/-! ## C8: the intermediate audio file -/

/-- Counterexample to C8 as stated: when the conversion succeeds and the
transcription then fails, the batch job returns early with the error and
`temp_audio.wav` is left on disk. -/
theorem C8_temp_file_cex :
    (transcribe_file_advanced_impl envBatchDecodeFail).result
      = Except.error "Transcription failed" ∧
    (transcribe_file_advanced_impl envBatchDecodeFail).temp_exists = true := by
  constructor
  · rfl
  · rfl

/-- C8 amended: the intermediate `temp_audio.wav` is deleted on the
success path only; on every failure after a successful conversion
(spawn failure or transcription error) the function returns early and
the file persists. -/
theorem C8_temp_file (env : BatchEnv) :
    ((transcribe_file_advanced_impl env).result.isOk = true →
      (transcribe_file_advanced_impl env).temp_exists = false) ∧
    (env.file_exists = true → env.model_exists = true →
      env.create_dir_ok = true → env.convert.isOk = true →
      (transcribe_file_advanced_impl env).result.isOk = false →
      (transcribe_file_advanced_impl env).temp_exists = true) := by
  obtain ⟨fe, me, cd, cv, cw, sp, tr⟩ := env
  cases fe
  · exact ⟨fun h => by exact absurd h (by exact fun hc => nomatch hc),
      fun h => by cases h⟩
  cases me
  · exact ⟨fun h => by exact absurd h (by exact fun hc => nomatch hc),
      fun _ h => by cases h⟩
  cases cd
  · exact ⟨fun h => by exact absurd h (by exact fun hc => nomatch hc),
      fun _ _ h => by cases h⟩
  cases cv with
  | error e =>
      exact ⟨fun h => by exact absurd h (by exact fun hc => nomatch hc),
        fun _ _ _ h => by exact absurd h (by exact fun hc => nomatch hc)⟩
  | ok d =>
      cases sp
      · exact ⟨fun h => by exact absurd h (by exact fun hc => nomatch hc),
          fun _ _ _ _ _ => rfl⟩
      cases tr with
      | error e =>
          exact ⟨fun h => by exact absurd h (by exact fun hc => nomatch hc),
            fun _ _ _ _ _ => rfl⟩
      | ok p =>
          obtain ⟨language, segments⟩ := p
          exact ⟨fun _ => rfl, fun _ _ _ _ h => by exact absurd h (by exact fun hc => nomatch hc)⟩

/-- Witness for C8's amended theorem at a concrete failing run. -/
theorem C8_temp_file_witness :
    ((transcribe_file_advanced_impl envBatchDecodeFail).result.isOk = true →
      (transcribe_file_advanced_impl envBatchDecodeFail).temp_exists = false) ∧
    (envBatchDecodeFail.file_exists = true → envBatchDecodeFail.model_exists = true →
      envBatchDecodeFail.create_dir_ok = true → envBatchDecodeFail.convert.isOk = true →
      (transcribe_file_advanced_impl envBatchDecodeFail).result.isOk = false →
      (transcribe_file_advanced_impl envBatchDecodeFail).temp_exists = true) :=
  C8_temp_file envBatchDecodeFail

/-! ## C10: WAV validation in transcribe_single_pass -/

theorem loadModel_mem_singlePassDecode (env : SinglePassEnv) (auto : Bool) :
    WhisperAction.loadModel ∈ (singlePassDecode env auto).2 := by
  unfold singlePassDecode
  by_cases h1 : env.model_load_ok = false
  · rw [if_pos h1]; exact List.mem_singleton.mpr rfl
  rw [if_neg h1]
  by_cases h2 : env.state_create_ok = false
  · rw [if_pos h2]; exact List.mem_cons_self _ _
  rw [if_neg h2]
  cases env.decode <;> simp

/-- C10: with a readable WAV, `transcribe_single_pass` returns an error
without loading the model or decoding whenever the sample rate is not
16000, the bit depth is not 16, or the channel count is neither 1 nor 2;
for a 16 kHz 16-bit mono or stereo WAV (with the sample conversions
succeeding) the validation passes and the model load is reached. -/
theorem C10_wav_validation (env : SinglePassEnv) (auto : Bool) (spec : WavSpec)
    (hw : env.wav_open = Except.ok spec) :
    ((spec.sample_rate ≠ 16000 ∨ spec.bits_per_sample ≠ 16 ∨
        (spec.channels ≠ 1 ∧ spec.channels ≠ 2)) →
      (∃ e, (transcribe_single_pass env auto).1 = Except.error e) ∧
      (transcribe_single_pass env auto).2 = []) ∧
    (spec.sample_rate = 16000 → spec.bits_per_sample = 16 →
      (spec.channels = 1 ∨ spec.channels = 2) →
      env.pcm_convert_ok = true → env.stereo_convert_ok = true →
      WhisperAction.loadModel ∈ (transcribe_single_pass env auto).2) := by
  constructor
  · intro hbad
    simp only [transcribe_single_pass, hw]
    split_ifs with h1 h2 h3 h4 h5 h6
    · exact ⟨⟨_, rfl⟩, rfl⟩
    · exact ⟨⟨_, rfl⟩, rfl⟩
    · exact ⟨⟨_, rfl⟩, rfl⟩
    · exact ⟨⟨_, rfl⟩, rfl⟩
    · rcases hbad with h | h | h
      · exact absurd h1 (not_not_intro h)
      · exact absurd h2 (not_not_intro h)
      · exact absurd h4 h.2
    · rcases hbad with h | h | h
      · exact absurd h1 (not_not_intro h)
      · exact absurd h2 (not_not_intro h)
      · exact absurd h6 h.1
    · exact ⟨⟨_, rfl⟩, rfl⟩
  · intro h1 h2 hch hp hs
    simp only [transcribe_single_pass, hw]
    rw [if_neg (not_not_intro h1), if_neg (not_not_intro h2),
      if_neg (by rw [hp]; exact fun hc => nomatch hc)]
    rcases hch with hch | hch
    · rw [if_neg (by rw [hch]; exact fun hc => nomatch hc), if_pos hch]
      exact loadModel_mem_singlePassDecode env auto
    · rw [if_pos hch, if_neg (by rw [hs]; exact fun hc => nomatch hc)]
      exact loadModel_mem_singlePassDecode env auto

/-- Witness for C10: a 16 kHz 16-bit mono WAV with all external calls
succeeding. -/
theorem C10_wav_validation_witness :
    ((WavSpec.mk 16000 16 1).sample_rate ≠ 16000 ∨
        (WavSpec.mk 16000 16 1).bits_per_sample ≠ 16 ∨
        ((WavSpec.mk 16000 16 1).channels ≠ 1 ∧ (WavSpec.mk 16000 16 1).channels ≠ 2) →
      (∃ e, (transcribe_single_pass
        { wav_open := Except.ok (WavSpec.mk 16000 16 1), pcm_convert_ok := true,
          stereo_convert_ok := true, model_load_ok := true, state_create_ok := true,
          decode := Except.ok [], lang_str := none } true).1 = Except.error e) ∧
      (transcribe_single_pass
        { wav_open := Except.ok (WavSpec.mk 16000 16 1), pcm_convert_ok := true,
          stereo_convert_ok := true, model_load_ok := true, state_create_ok := true,
          decode := Except.ok [], lang_str := none } true).2 = []) ∧
    ((WavSpec.mk 16000 16 1).sample_rate = 16000 →
      (WavSpec.mk 16000 16 1).bits_per_sample = 16 →
      ((WavSpec.mk 16000 16 1).channels = 1 ∨ (WavSpec.mk 16000 16 1).channels = 2) →
      true = true → true = true →
      WhisperAction.loadModel ∈ (transcribe_single_pass
        { wav_open := Except.ok (WavSpec.mk 16000 16 1), pcm_convert_ok := true,
          stereo_convert_ok := true, model_load_ok := true, state_create_ok := true,
          decode := Except.ok [], lang_str := none } true).2) :=
  C10_wav_validation
    { wav_open := Except.ok (WavSpec.mk 16000 16 1), pcm_convert_ok := true,
      stereo_convert_ok := true, model_load_ok := true, state_create_ok := true,
      decode := Except.ok [], lang_str := none } true (WavSpec.mk 16000 16 1) rfl

/-! ## C9: the Chunker (spec-modelled) -/

theorem chunkStartsGo_ne_nil (fuel n cs stride start : Nat) (hf : 0 < fuel) :
    chunkStartsGo fuel n cs stride start ≠ [] := by
  cases fuel with
  | zero => exact absurd hf (by omega)
  | succ f =>
      unfold chunkStartsGo
      by_cases h : start + cs < n <;> simp [h]

theorem chunkStartsGo_head (fuel n cs stride start : Nat) (hf : 0 < fuel) :
    (chunkStartsGo fuel n cs stride start).head? = some start := by
  cases fuel with
  | zero => exact absurd hf (by omega)
  | succ f =>
      unfold chunkStartsGo
      by_cases h : start + cs < n <;> simp [h]

theorem chunkStartsGo_chain (fuel : Nat) (n cs stride : Nat) :
    ∀ start, List.Chain' (fun a b => b = a + stride)
      (chunkStartsGo fuel n cs stride start) := by
  induction fuel with
  | zero => intro start; exact List.chain'_nil
  | succ f ih =>
      intro start
      unfold chunkStartsGo
      by_cases h : start + cs < n
      · rw [if_pos h]
        refine List.chain'_cons'.mpr ⟨?_, ih (start + stride)⟩
        intro y hy
        cases f with
        | zero => simp [chunkStartsGo] at hy
        | succ f' =>
            rw [chunkStartsGo_head (f' + 1) n cs stride (start + stride) (by omega)] at hy
            exact (by simpa using hy : start + stride = y).symm
      · rw [if_neg h]; exact List.chain'_singleton start

theorem chunkStartsGo_dropLast (fuel : Nat) (n cs stride : Nat)
    (hcs : 0 < cs) (hstride : 0 < stride) :
    ∀ start, n ≤ start + fuel →
      ∀ st ∈ (chunkStartsGo fuel n cs stride start).dropLast, st + cs < n := by
  induction fuel with
  | zero => intro start _ st hst; simp [chunkStartsGo] at hst
  | succ f ih =>
      intro start hfuel st hst
      unfold chunkStartsGo at hst
      by_cases h : start + cs < n
      · rw [if_pos h] at hst
        have hf : 0 < f := by omega
        have hne := chunkStartsGo_ne_nil f n cs stride (start + stride) hf
        rw [List.dropLast_cons_of_ne_nil hne] at hst
        rcases List.mem_cons.mp hst with rfl | hst
        · exact h
        · exact ih (start + stride) (by omega) st hst
      · rw [if_neg h] at hst
        simp at hst

theorem chunkStartsGo_getLast (fuel : Nat) (n cs stride : Nat)
    (hcs : 0 < cs) (hstride : 0 < stride) :
    ∀ start st, n ≤ start + fuel →
      (chunkStartsGo fuel n cs stride start).getLast? = some st →
      n ≤ st + cs := by
  induction fuel with
  | zero => intro start st hfuel h; simp [chunkStartsGo] at h
  | succ f ih =>
      intro start st hfuel h
      unfold chunkStartsGo at h
      by_cases hc : start + cs < n
      · rw [if_pos hc] at h
        have hf : 0 < f := by omega
        have hne := chunkStartsGo_ne_nil f n cs stride (start + stride) hf
        obtain ⟨y, l, hgo⟩ := List.exists_cons_of_ne_nil hne
        rw [hgo, List.getLast?_cons_cons, ← hgo] at h
        exact ih (start + stride) st (by omega) h
      · rw [if_neg hc] at h
        simp at h
        omega

theorem chunkStartsGo_cover (fuel : Nat) (n cs stride : Nat)
    (hstride : 0 < stride) (hsc : stride ≤ cs) :
    ∀ start, n ≤ start + fuel → ∀ x, start ≤ x → x < n →
      ∃ st ∈ chunkStartsGo fuel n cs stride start,
        st ≤ x ∧ x < min (st + cs) n := by
  induction fuel with
  | zero => intro start hfuel x hx1 hx2; exact absurd hx2 (by omega)
  | succ f ih =>
      intro start hfuel x hx1 hx2
      unfold chunkStartsGo
      by_cases h : start + cs < n
      · rw [if_pos h]
        by_cases hxc : x < start + cs
        · exact ⟨start, List.mem_cons_self _ _, hx1, by omega⟩
        · obtain ⟨st, hmem, hle, hlt⟩ :=
            ih (start + stride) (by omega) x (by omega) hx2
          exact ⟨st, List.mem_cons_of_mem _ hmem, hle, hlt⟩
      · rw [if_neg h]
        exact ⟨start, List.mem_singleton.mpr rfl, hx1, by omega⟩

theorem chunkStartsGo_overlap (fuel : Nat) (n cs stride : Nat)
    (hcs : 0 < cs) (hstride : 0 < stride) :
    ∀ start, n ≤ start + fuel →
      List.Chain' (fun a b => min (a + cs) n - b = cs - stride)
        (chunkStartsGo fuel n cs stride start) := by
  induction fuel with
  | zero => intro start _; exact List.chain'_nil
  | succ f ih =>
      intro start hfuel
      unfold chunkStartsGo
      by_cases h : start + cs < n
      · rw [if_pos h]
        have hf : 0 < f := by omega
        refine List.chain'_cons'.mpr ⟨?_, ih (start + stride) (by omega)⟩
        intro y hy
        rw [chunkStartsGo_head f n cs stride (start + stride) hf] at hy
        have hyv : start + stride = y := by simpa using hy
        subst hyv
        omega
      · rw [if_neg h]; exact List.chain'_singleton start

/-- C9 (spec-modelled): the Chunker's output is an ordered chunk sequence
starting at sample 0, a new chunk every `stride = chunk_size −
overlap_size` samples, covering `[0, input length)` with no gaps;
consecutive chunks overlap by exactly `overlap_size` samples; every
non-final chunk is full-size and the final chunk ends exactly at the
input end, truncated to the remaining samples. -/
theorem C9_chunker (samples : List ℚ) (sample_rate chunk_duration overlap_duration : Nat)
    (hrate : 0 < sample_rate) (hover : overlap_duration < chunk_duration) :
    ∃ starts,
      chunker samples sample_rate chunk_duration overlap_duration
        = some (starts.map
            (chunkOf samples sample_rate (chunk_duration * sample_rate))) ∧
      starts.head? = some 0 ∧
      List.Chain' (fun a b => b = a +
        (chunk_duration * sample_rate - overlap_duration * sample_rate)) starts ∧
      (∀ x, x < samples.length → ∃ st ∈ starts,
        st ≤ x ∧ x < min (st + chunk_duration * sample_rate) samples.length) ∧
      (∀ st ∈ starts.dropLast,
        st + chunk_duration * sample_rate < samples.length) ∧
      (∀ st, starts.getLast? = some st →
        samples.length ≤ st + chunk_duration * sample_rate) ∧
      List.Chain' (fun a b =>
        min (a + chunk_duration * sample_rate) samples.length - b
          = overlap_duration * sample_rate) starts ∧
      (∀ st ∈ starts,
        (chunkOf samples sample_rate (chunk_duration * sample_rate) st).samples.length
          = min (st + chunk_duration * sample_rate) samples.length - st) := by
  set n := samples.length with hn
  set cs := chunk_duration * sample_rate with hcs
  set ov := overlap_duration * sample_rate with hov
  have hovcs : ov < cs := by
    rw [hcs, hov]
    exact Nat.mul_lt_mul_of_lt_of_le hover (Nat.le_refl _) hrate
  have hcs0 : 0 < cs := by omega
  have hstride0 : 0 < cs - ov := by omega
  refine ⟨chunkStarts n cs (cs - ov), ?_, ?_, ?_, ?_, ?_, ?_, ?_, ?_⟩
  · rw [chunker]
    simp only [← hn, ← hcs, ← hov]
    rw [if_neg (by omega)]
  · exact chunkStartsGo_head (n + 1) n cs (cs - ov) 0 (by omega)
  · exact chunkStartsGo_chain (n + 1) n cs (cs - ov) 0
  · intro x hx
    exact chunkStartsGo_cover (n + 1) n cs (cs - ov) hstride0 (by omega) 0
      (by omega) x (by omega) hx
  · exact chunkStartsGo_dropLast (n + 1) n cs (cs - ov) hcs0 hstride0 0 (by omega)
  · intro st hst
    exact chunkStartsGo_getLast (n + 1) n cs (cs - ov) hcs0 hstride0 0 st (by omega) hst
  · have := chunkStartsGo_overlap (n + 1) n cs (cs - ov) hcs0 hstride0 0 (by omega)
    exact this.imp (fun a b hab => by omega)
  · intro st hst
    show ((samples.drop st).take cs).length = min (st + cs) n - st
    rw [List.length_take, List.length_drop, ← hn]
    omega

/-- Witness for C9 on a concrete input: 10 samples at 1 Hz, 6-second
chunks with a 2-second overlap (stride 4). -/
theorem C9_chunker_witness :
    ∃ starts,
      chunker (List.replicate 10 (0 : ℚ)) 1 6 2
        = some (starts.map (chunkOf (List.replicate 10 (0 : ℚ)) 1 (6 * 1))) ∧
      starts.head? = some 0 ∧
      List.Chain' (fun a b => b = a + (6 * 1 - 2 * 1)) starts ∧
      (∀ x, x < (List.replicate 10 (0 : ℚ)).length → ∃ st ∈ starts,
        st ≤ x ∧ x < min (st + 6 * 1) (List.replicate 10 (0 : ℚ)).length) ∧
      (∀ st ∈ starts.dropLast,
        st + 6 * 1 < (List.replicate 10 (0 : ℚ)).length) ∧
      (∀ st, starts.getLast? = some st →
        (List.replicate 10 (0 : ℚ)).length ≤ st + 6 * 1) ∧
      List.Chain' (fun a b =>
        min (a + 6 * 1) (List.replicate 10 (0 : ℚ)).length - b = 2 * 1) starts ∧
      (∀ st ∈ starts,
        (chunkOf (List.replicate 10 (0 : ℚ)) 1 (6 * 1) st).samples.length
          = min (st + 6 * 1) (List.replicate 10 (0 : ℚ)).length - st) :=
  C9_chunker (List.replicate 10 (0 : ℚ)) 1 6 2 (by decide) (by decide)

/-! ## C4: subtitle output shapes -/

theorem foldl_append_entries {α : Type} (f : α → String) (l : List α)
    (init : String) :
    l.foldl (fun acc x => acc ++ f x) init = init ++ concatMap f l := by
  induction l generalizing init with
  | nil => rw [List.foldl_nil, concatMap, String.append_empty]
  | cons x xs ih =>
      rw [List.foldl_cons, concatMap, ih, String.append_assoc]

/-- C4: the SRT output is, for each segment in order, the line `index+1`,
then the `start --> end` timestamp line (comma-millisecond SRT stamps),
then the trimmed text and a blank line; the VTT output starts with the
literal `WEBVTT` header and a blank line, followed per segment by the
dot-millisecond timestamp line, the trimmed text and a blank line. -/
theorem C4_subtitle_shapes (segments : List SubtitleSegment) :
    generate_srt segments
      = concatMap (fun segment =>
          (natToStr (segment.index + 1) ++ "\n") ++
          (format_timestamp_srt segment.start_time ++ " --> " ++
            format_timestamp_srt segment.end_time ++ "\n") ++
          (strTrim segment.text ++ "\n\n")) segments ∧
    generate_vtt segments
      = "WEBVTT\n\n" ++ concatMap (fun segment =>
          (format_timestamp_vtt segment.start_time ++ " --> " ++
            format_timestamp_vtt segment.end_time ++ "\n") ++
          (strTrim segment.text ++ "\n\n")) segments := by
  constructor
  · calc generate_srt segments
        = "" ++ concatMap srtEntry segments :=
          foldl_append_entries srtEntry segments ""
      _ = concatMap srtEntry segments := String.empty_append _
  · exact foldl_append_entries vttEntry segments "WEBVTT\n\n"

/-! ## C3: timestamp rendering -/

theorem floorAsU32_of_nonneg (x : ℚ) (h : 0 ≤ x) (hlt : ⌊x⌋₊ < 2 ^ 32) :
    floorAsU32 x = ⌊x⌋₊ := by
  rw [floorAsU32, if_neg (not_lt.mpr h), Int.floor_toNat]
  omega

theorem fmod_nat (q : ℚ) (k : Nat) (h0 : 0 ≤ q) (hk : 0 < k) :
    fmod q (k : ℚ) = q - ((k * (⌊q⌋₊ / k) : ℕ) : ℚ) := by
  rw [fmod, truncQ, if_pos (by positivity)]
  have h1 : ⌊q / (k : ℚ)⌋ = ((⌊q⌋₊ / k : ℕ) : ℤ) := by
    rw [← Nat.floor_div_nat q k]
    rw [Int.natCast_floor_eq_floor (by positivity)]
  rw [h1]
  norm_cast

/-- The fmod-by-fmod computation of the renderers equals the spec's
mixed-radix floor divisions of the total seconds. -/
theorem timestampParts_eq_spec (q : ℚ) (h0 : 0 ≤ q) (hb : q < 3600 * 2 ^ 32) :
    timestampParts q = specTimestampParts q := by
  have hmlt : ⌊q⌋₊ < 3600 * 2 ^ 32 := by
    rw [Nat.floor_lt h0]
    exact_mod_cast hb
  have h3600 : fmod q 3600 = q - ((3600 * (⌊q⌋₊ / 3600) : ℕ) : ℚ) := by
    have := fmod_nat q 3600 h0 (by omega)
    simpa using this
  have h60 : fmod q 60 = q - ((60 * (⌊q⌋₊ / 60) : ℕ) : ℚ) := by
    have := fmod_nat q 60 h0 (by omega)
    simpa using this
  have h1 : fmod q 1 = q - ((⌊q⌋₊ : ℕ) : ℚ) := by
    have := fmod_nat q 1 h0 (by omega)
    simpa using this
  rw [timestampParts, specTimestampParts]
  refine congrArg₂ Prod.mk ?_ (congrArg₂ Prod.mk ?_ (congrArg₂ Prod.mk ?_ ?_))
  · -- hours
    rw [floorAsU32_of_nonneg _ (by positivity) ?bound]
    case bound =>
      rw [show ((3600 : ℚ)) = ((3600 : ℕ) : ℚ) by norm_num, Nat.floor_div_nat]
      omega
    rw [show ((3600 : ℚ)) = ((3600 : ℕ) : ℚ) by norm_num, Nat.floor_div_nat]
  · -- minutes
    rw [h3600]
    have hle : ((3600 * (⌊q⌋₊ / 3600) : ℕ) : ℚ) ≤ q := by
      calc ((3600 * (⌊q⌋₊ / 3600) : ℕ) : ℚ) ≤ (⌊q⌋₊ : ℚ) := by
            exact_mod_cast Nat.cast_le.mpr (Nat.mul_div_le _ _)
        _ ≤ q := Nat.floor_le h0
    have hdiv : (q - ((3600 * (⌊q⌋₊ / 3600) : ℕ) : ℚ)) / 60
        = q / 60 - ((60 * (⌊q⌋₊ / 3600) : ℕ) : ℚ) := by
      push_cast
      ring
    rw [hdiv]
    rw [floorAsU32_of_nonneg _ ?nn ?bd]
    case nn =>
      rw [← hdiv]
      exact div_nonneg (by linarith) (by norm_num)
    case bd =>
      rw [Nat.floor_sub_nat]
      have : ⌊q / 60⌋₊ = ⌊q⌋₊ / 60 := by
        rw [show ((60 : ℚ)) = ((60 : ℕ) : ℚ) by norm_num, Nat.floor_div_nat]
      omega
    rw [Nat.floor_sub_nat]
    have h6060 : ⌊q / 60⌋₊ = ⌊q⌋₊ / 60 := by
      rw [show ((60 : ℚ)) = ((60 : ℕ) : ℚ) by norm_num, Nat.floor_div_nat]
    rw [h6060]
    have : ⌊q⌋₊ / 3600 = ⌊q⌋₊ / 60 / 60 := by
      rw [Nat.div_div_eq_div_mul]
    omega
  · -- seconds
    rw [h60]
    rw [floorAsU32_of_nonneg _ ?nn2 ?bd2]
    case nn2 =>
      have hle : ((60 * (⌊q⌋₊ / 60) : ℕ) : ℚ) ≤ q := by
        calc ((60 * (⌊q⌋₊ / 60) : ℕ) : ℚ) ≤ (⌊q⌋₊ : ℚ) := by
              exact_mod_cast Nat.cast_le.mpr (Nat.mul_div_le _ _)
          _ ≤ q := Nat.floor_le h0
      linarith
    case bd2 =>
      rw [Nat.floor_sub_nat]
      omega
    rw [Nat.floor_sub_nat]
    omega
  · -- milliseconds
    rw [h1]
    have hfr1 : (q - (⌊q⌋₊ : ℚ)) * 1000 < 1000 := by
      have : q - (⌊q⌋₊ : ℚ) < 1 := by
        have := Nat.lt_floor_add_one (α := ℚ) q
        linarith
      linarith
    have hfr0 : (0:ℚ) ≤ (q - (⌊q⌋₊ : ℚ)) * 1000 := by
      have := Nat.floor_le h0
      nlinarith
    rw [floorAsU32_of_nonneg _ hfr0 ?bd3]
    case bd3 =>
      have : ⌊(q - (⌊q⌋₊ : ℚ)) * 1000⌋₊ < 1000 := by
        rw [Nat.floor_lt hfr0]
        exact_mod_cast hfr1
      omega

theorem timestampParts_f64_3661_234 :
    timestampParts f64_3661_234 = (1, 1, 1, 233) := by
  simp only [timestampParts, floorAsU32, fmod, truncQ, f64_3661_234]
  norm_num
  rfl

theorem timestampParts_exact_3661_234 :
    timestampParts exact_3661_234 = (1, 1, 1, 234) := by
  simp only [timestampParts, floorAsU32, fmod, truncQ, exact_3661_234]
  norm_num
  rfl

theorem format_timestamp_srt_f64_3661_234 :
    format_timestamp_srt f64_3661_234 = "01:01:01,233" := by
  rw [format_timestamp_srt, timestampParts_f64_3661_234]
  decide

theorem format_timestamp_vtt_f64_3661_234 :
    format_timestamp_vtt f64_3661_234 = "01:01:01.233" := by
  rw [format_timestamp_vtt, timestampParts_f64_3661_234]
  decide

theorem format_timestamp_srt_exact_3661_234 :
    format_timestamp_srt exact_3661_234 = "01:01:01,234" := by
  rw [format_timestamp_srt, timestampParts_exact_3661_234]
  decide

theorem format_timestamp_vtt_exact_3661_234 :
    format_timestamp_vtt exact_3661_234 = "01:01:01.234" := by
  rw [format_timestamp_vtt, timestampParts_exact_3661_234]
  decide

/-- Counterexample to C3 as stated: the IEEE-754 double denoted by the
program literal `3661.234` is `3661.2339999999999236…`; the renderers
floor and print `…233`, not the claimed `…234`. -/
theorem C3_timestamp_cex :
    format_timestamp_srt f64_3661_234 = "01:01:01,233" ∧
    format_timestamp_vtt f64_3661_234 = "01:01:01.233" ∧
    format_timestamp_srt f64_3661_234 ≠ "01:01:01,234" ∧
    format_timestamp_vtt f64_3661_234 ≠ "01:01:01.234" := by
  refine ⟨format_timestamp_srt_f64_3661_234, format_timestamp_vtt_f64_3661_234, ?_, ?_⟩
  · rw [format_timestamp_srt_f64_3661_234]; decide
  · rw [format_timestamp_vtt_f64_3661_234]; decide

/-- C3 amended: both renderers compute hours, minutes, seconds by integer
floor division of the total seconds and milliseconds as
`floor(fractional_seconds * 1000)`; on the exact rational `3661.234` they
print `01:01:01,234` / `01:01:01.234`, but on the `f64` the program's
literal `3661.234` actually denotes (slightly below the decimal value) the
floor truncation yields `01:01:01,233` / `01:01:01.233`. -/
theorem C3_timestamp_rendering (q : ℚ) (h0 : 0 ≤ q) (hb : q < 3600 * 2 ^ 32) :
    format_timestamp_srt q
      = renderStamp (⌊q⌋₊ / 3600) (⌊q⌋₊ / 60 % 60) (⌊q⌋₊ % 60)
          (⌊(q - (⌊q⌋₊ : ℚ)) * 1000⌋₊) ',' ∧
    format_timestamp_vtt q
      = renderStamp (⌊q⌋₊ / 3600) (⌊q⌋₊ / 60 % 60) (⌊q⌋₊ % 60)
          (⌊(q - (⌊q⌋₊ : ℚ)) * 1000⌋₊) '.' ∧
    format_timestamp_srt exact_3661_234 = "01:01:01,234" ∧
    format_timestamp_vtt exact_3661_234 = "01:01:01.234" ∧
    format_timestamp_srt f64_3661_234 = "01:01:01,233" ∧
    format_timestamp_vtt f64_3661_234 = "01:01:01.233" := by
  refine ⟨?_, ?_, format_timestamp_srt_exact_3661_234,
    format_timestamp_vtt_exact_3661_234, format_timestamp_srt_f64_3661_234,
    format_timestamp_vtt_f64_3661_234⟩
  · rw [format_timestamp_srt, timestampParts_eq_spec q h0 hb, specTimestampParts]
  · rw [format_timestamp_vtt, timestampParts_eq_spec q h0 hb, specTimestampParts]

/-- Witness for C3's amended theorem at the exact rational `3661.234`. -/
theorem C3_timestamp_rendering_witness :
    format_timestamp_srt exact_3661_234
      = renderStamp (⌊exact_3661_234⌋₊ / 3600) (⌊exact_3661_234⌋₊ / 60 % 60)
          (⌊exact_3661_234⌋₊ % 60)
          (⌊(exact_3661_234 - (⌊exact_3661_234⌋₊ : ℚ)) * 1000⌋₊) ',' ∧
    format_timestamp_vtt exact_3661_234
      = renderStamp (⌊exact_3661_234⌋₊ / 3600) (⌊exact_3661_234⌋₊ / 60 % 60)
          (⌊exact_3661_234⌋₊ % 60)
          (⌊(exact_3661_234 - (⌊exact_3661_234⌋₊ : ℚ)) * 1000⌋₊) '.' ∧
    format_timestamp_srt exact_3661_234 = "01:01:01,234" ∧
    format_timestamp_vtt exact_3661_234 = "01:01:01.234" ∧
    format_timestamp_srt f64_3661_234 = "01:01:01,233" ∧
    format_timestamp_vtt f64_3661_234 = "01:01:01.233" :=
  C3_timestamp_rendering exact_3661_234 (by norm_num [exact_3661_234])
    (by norm_num [exact_3661_234])

/-! ## C5: SRT index-line round trip -/


theorem digitChar_isDigit : ∀ d, d < 10 → (Nat.digitChar d).isDigit = true := by decide

theorem digitVal_digitChar : ∀ d, d < 10 → (Nat.digitChar d).toNat - 48 = d := by decide

theorem natDigitsGo_digit (fuel : Nat) :
    ∀ n c, c ∈ natDigitsGo fuel n → c.isDigit = true := by
  induction fuel with
  | zero => intro n c h; simp [natDigitsGo] at h
  | succ f ih =>
      intro n c h
      unfold natDigitsGo at h
      by_cases hn : n < 10
      · rw [if_pos hn] at h
        simp at h
        subst h
        exact digitChar_isDigit n hn
      · rw [if_neg hn] at h
        rcases List.mem_append.mp h with h | h
        · exact ih _ c h
        · simp at h
          subst h
          exact digitChar_isDigit (n % 10) (Nat.mod_lt _ (by omega))

theorem natDigitsGo_ne_nil (fuel n : Nat) (hf : 0 < fuel) :
    natDigitsGo fuel n ≠ [] := by
  cases fuel with
  | zero => exact absurd hf (by omega)
  | succ f =>
      unfold natDigitsGo
      by_cases hn : n < 10 <;> simp [hn]

theorem not_newline_mem_natDigitsGo (fuel n : Nat) : '\n' ∉ natDigitsGo fuel n := by
  intro h
  have := natDigitsGo_digit fuel n '\n' h
  exact absurd this (by decide)

theorem natDigits_ne_nil (n : Nat) : natDigits n ≠ [] :=
  natDigitsGo_ne_nil (n + 1) n (by omega)

theorem not_newline_mem_natDigits (n : Nat) : '\n' ∉ natDigits n :=
  not_newline_mem_natDigitsGo (n + 1) n

theorem parseNatChars_append (cs : List Char) (c : Char) :
    parseNatChars (cs ++ [c]) = parseNatChars cs * 10 + (c.toNat - 48) := by
  rw [parseNatChars, List.foldl_append]
  rfl

theorem parseNatChars_natDigitsGo (fuel : Nat) : ∀ n, n < fuel →
    parseNatChars (natDigitsGo fuel n) = n := by
  induction fuel with
  | zero => intro n h; exact absurd h (by omega)
  | succ f ih =>
      intro n h
      unfold natDigitsGo
      by_cases hn : n < 10
      · rw [if_pos hn]
        have hv := digitVal_digitChar n hn
        simp [parseNatChars, List.foldl]
        omega
      · rw [if_neg hn]
        rw [parseNatChars_append]
        rw [ih (n / 10) (by omega)]
        have := digitVal_digitChar (n % 10) (Nat.mod_lt _ (by omega))
        omega

theorem parseNatChars_natDigits (n : Nat) : parseNatChars (natDigits n) = n :=
  parseNatChars_natDigitsGo (n + 1) n (by omega)

theorem not_newline_mem_zeroPad (w : Nat) (cs : List Char) (h : '\n' ∉ cs) :
    '\n' ∉ zeroPad w cs := by
  rw [zeroPad]
  intro hm
  rcases List.mem_append.mp hm with hm | hm
  · exact absurd (List.eq_of_mem_replicate hm) (by decide)
  · exact h hm

theorem not_newline_mem_renderStamp (h m s ms : Nat) (sep : Char)
    (hsep : sep ≠ '\n') : '\n' ∉ (renderStamp h m s ms sep).data := by
  rw [renderStamp]
  intro hm
  have hm' : '\n' ∈ ((zeroPad 2 (natDigits h) ++ (':' :: zeroPad 2 (natDigits m))) ++
      (':' :: zeroPad 2 (natDigits s))) ++ (sep :: zeroPad 3 (natDigits ms)) := hm
  rcases List.mem_append.mp hm' with h1 | h1
  · rcases List.mem_append.mp h1 with h2 | h2
    · rcases List.mem_append.mp h2 with h3 | h3
      · exact not_newline_mem_zeroPad _ _ (not_newline_mem_natDigitsGo _ _) h3
      · rcases List.mem_cons.mp h3 with h4 | h4
        · exact absurd h4 (by decide)
        · exact not_newline_mem_zeroPad _ _ (not_newline_mem_natDigitsGo _ _) h4
    · rcases List.mem_cons.mp h2 with h4 | h4
      · exact absurd h4 (by decide)
      · exact not_newline_mem_zeroPad _ _ (not_newline_mem_natDigitsGo _ _) h4
  · rcases List.mem_cons.mp h1 with h4 | h4
    · exact hsep h4.symm
    · exact not_newline_mem_zeroPad _ _ (not_newline_mem_natDigitsGo _ _) h4

theorem not_newline_mem_format_srt (q : ℚ) :
    '\n' ∉ (format_timestamp_srt q).data := by
  rw [format_timestamp_srt]
  rcases htp : timestampParts q with ⟨h1, h2, h3, h4⟩
  exact not_newline_mem_renderStamp h1 h2 h3 h4 ',' (by decide)

theorem not_newline_mem_tsLine (a b : ℚ) :
    '\n' ∉ (format_timestamp_srt a ++ " --> " ++ format_timestamp_srt b).data := by
  rw [String.data_append, String.data_append]
  intro h
  rcases List.mem_append.mp h with h | h
  · rcases List.mem_append.mp h with h | h
    · exact not_newline_mem_format_srt a h
    · exact absurd h (by decide)
  · exact not_newline_mem_format_srt b h

theorem tsLine_ne_nil (a b : ℚ) :
    (format_timestamp_srt a ++ " --> " ++ format_timestamp_srt b).data ≠ [] := by
  rw [String.data_append, String.data_append]
  intro h
  rcases List.append_eq_nil.mp h with ⟨h1, h2⟩
  rcases List.append_eq_nil.mp h1 with ⟨h3, h4⟩
  exact absurd h4 (by decide)

theorem splitLines_newline_cons (R : List Char) :
    splitLines ('\n' :: R) = [] :: splitLines R := by
  simp [splitLines]

theorem splitLines_append_newline (l : List Char) (rest : List Char)
    (hl : '\n' ∉ l) :
    splitLines (l ++ '\n' :: rest) = l :: splitLines rest := by
  induction l with
  | nil => simp [splitLines]
  | cons c cs ih =>
      have hc : c ≠ '\n' := fun hc => hl (hc ▸ List.mem_cons_self _ _)
      have hcs : '\n' ∉ cs := fun h => hl (List.mem_cons_of_mem _ h)
      rw [List.cons_append]
      conv_lhs => rw [splitLines]
      rw [if_neg hc, ih hcs]

theorem srtEntry_data_append (seg : SubtitleSegment) (R : List Char) :
    (srtEntry seg).data ++ R
      = natDigits (seg.index + 1) ++ '\n' ::
        ((format_timestamp_srt seg.start_time ++ " --> " ++
          format_timestamp_srt seg.end_time).data ++ '\n' ::
          ((strTrim seg.text).data ++ '\n' :: '\n' :: R)) := by
  have h0 : ∀ l : List Char, (String.mk l).data = l := fun _ => rfl
  have h1 : ("\n").data = ['\n'] := rfl
  have h2 : ("\n\n").data = ['\n', '\n'] := rfl
  rw [srtEntry, natToStr]
  simp only [String.data_append, h0, h1, h2]
  simp [List.append_assoc]

theorem splitLines_srtEntry_append (seg : SubtitleSegment) (R : List Char)
    (htext : '\n' ∉ (strTrim seg.text).data) :
    splitLines ((srtEntry seg).data ++ R)
      = natDigits (seg.index + 1) ::
        (format_timestamp_srt seg.start_time ++ " --> " ++
          format_timestamp_srt seg.end_time).data ::
        (strTrim seg.text).data :: [] :: splitLines R := by
  rw [srtEntry_data_append]
  rw [splitLines_append_newline _ _ (not_newline_mem_natDigits _)]
  rw [splitLines_append_newline _ _ (not_newline_mem_tsLine _ _)]
  rw [splitLines_append_newline _ _ htext]
  rw [splitLines_newline_cons]

theorem splitLines_concatMap_srtEntry (segs : List SubtitleSegment)
    (htext : ∀ seg ∈ segs, '\n' ∉ (strTrim seg.text).data) :
    splitLines (concatMap srtEntry segs).data
      = segs.flatMap srtEntryLines ++ [[]] := by
  induction segs with
  | nil => rfl
  | cons seg rest ih =>
      rw [concatMap, String.data_append]
      rw [splitLines_srtEntry_append seg _ (htext seg (List.mem_cons_self _ _))]
      rw [ih (fun s hs => htext s (List.mem_cons_of_mem _ hs))]
      rw [List.flatMap_cons, srtEntryLines]
      simp [List.append_assoc]

theorem indexLinesGo_entry (idx ts txt : List Char) (rest : List (List Char))
    (hidx : idx ≠ []) (hts : ts ≠ []) :
    indexLinesGo true (idx :: ts :: txt :: [] :: rest)
      = idx :: indexLinesGo true rest := by
  by_cases htxt : txt = [] <;> simp [indexLinesGo, hidx, hts, htxt]

theorem indexLinesGo_flatMap (segs : List SubtitleSegment) :
    indexLinesGo true (segs.flatMap srtEntryLines ++ [[]])
      = segs.map (fun seg => natDigits (seg.index + 1)) := by
  induction segs with
  | nil => rfl
  | cons seg rest ih =>
      rw [List.flatMap_cons, srtEntryLines]
      simp only [List.cons_append, List.append_assoc, List.nil_append]
      rw [indexLinesGo_entry _ _ _ _
        (natDigits_ne_nil _) (tsLine_ne_nil _ _)]
      rw [ih]
      rfl

/-- C5: re-parsing the index lines (the first line of each blank-separated
block) of the SRT output of a non-empty segment list indexed 0..n-1, as the
pipeline assigns indices, yields exactly the gap-free strictly increasing
sequence 1, 2, …, n. -/
theorem C5_srt_index_roundtrip (segs : List SubtitleSegment) (hne : segs ≠ [])
    (hidxs : segs.map (fun seg => seg.index) = List.range segs.length)
    (htext : ∀ seg ∈ segs, '\n' ∉ (strTrim seg.text).data) :
    parseSrtIndexLines (generate_srt segs) = List.range' 1 segs.length ∧
    parseSrtIndexLines (generate_srt segs) ≠ [] := by
  have hg : generate_srt segs = concatMap srtEntry segs :=
    (foldl_append_entries srtEntry segs "").trans (String.empty_append _)
  have hmain : parseSrtIndexLines (generate_srt segs) = List.range' 1 segs.length := by
    rw [parseSrtIndexLines, hg, splitLines_concatMap_srtEntry segs htext,
      indexLinesGo_flatMap]
    rw [List.map_map]
    have hcomp : (parseNatChars ∘ fun seg : SubtitleSegment => natDigits (seg.index + 1))
        = fun seg : SubtitleSegment => seg.index + 1 := by
      funext seg
      simp [Function.comp, parseNatChars_natDigits]
    rw [hcomp]
    have h2 : (fun seg : SubtitleSegment => seg.index + 1)
        = (fun n : Nat => n + 1) ∘ (fun seg : SubtitleSegment => seg.index) := rfl
    rw [h2, ← List.map_map, hidxs]
    rw [List.range'_eq_map_range]
    exact List.map_congr_left (fun x _ => Nat.add_comm x 1)
  refine ⟨hmain, ?_⟩
  rw [hmain]
  intro h
  rw [List.range'_eq_nil] at h
  exact hne (List.length_eq_zero.mp h)

/-- Witness for C5 on a one-segment list. -/
theorem C5_srt_index_roundtrip_witness :
    parseSrtIndexLines (generate_srt
      [{ index := 0, start_time := 0, end_time := 0, text := "a" }])
      = List.range' 1 (List.length
          [({ index := 0, start_time := 0, end_time := 0, text := "a" } : SubtitleSegment)]) ∧
    parseSrtIndexLines (generate_srt
      [{ index := 0, start_time := 0, end_time := 0, text := "a" }]) ≠ [] :=
  C5_srt_index_roundtrip
    [{ index := 0, start_time := 0, end_time := 0, text := "a" }]
    (by exact fun hc => nomatch hc) rfl (by decide)

end TauriWhisper
